import Mathlib

/-!
Verification of the SecAuto automation execution bridge.

The Python sources are shallowly embedded:
* JSON documents (the execution context and all values parsed by `json.load`)
  become the inductive `Json`.  Python `None` and JSON `null` are the same
  runtime value in CPython, so both are `Json.null`; numbers are modelled as
  exact rationals.
* `dict` lookup is association-list lookup on the insertion-ordered field
  list (CPython dicts preserve insertion order and have unique keys).
* I/O (stdin state, the local filesystem, the HTTP client) is passed in
  explicitly as oracle parameters, so every embedded operation is a total
  function and every run is reproducible inside the logic.
-/

namespace SecAuto

/-- A JSON value as CPython represents it after `json.load`: `null`/`None`,
booleans, numbers (modelled as exact rationals; float rounding is not relevant
to any property proved here), strings, lists and insertion-ordered dicts. -/
inductive Json where
  | null
  | bool (b : Bool)
  | num (n : Rat)
  | str (s : String)
  | arr (items : List Json)
  | obj (fields : List (String × Json))

mutual

/-- Structural equality test on JSON values. -/
def jeq : Json → Json → Bool
  | .null, .null => true
  | .bool a, .bool b => a = b
  | .num a, .num b => a = b
  | .str a, .str b => a = b
  | .arr a, .arr b => leq a b
  | .obj a, .obj b => feq a b
  | _, _ => false

/-- Structural equality test on lists of JSON values. -/
def leq : List Json → List Json → Bool
  | [], [] => true
  | a :: as_, b :: bs => jeq a b && leq as_ bs
  | _, _ => false

/-- Structural equality test on dict field lists. -/
def feq : List (String × Json) → List (String × Json) → Bool
  | [], [] => true
  | (k, v) :: as_, (k2, v2) :: bs => decide (k = k2) && jeq v v2 && feq as_ bs
  | _, _ => false

end

mutual

theorem jeq_iff : ∀ a b : Json, jeq a b = true ↔ a = b
  | .null, .null => by simp [jeq]
  | .null, .bool _ | .null, .num _ | .null, .str _ | .null, .arr _ | .null, .obj _ => by
      simp [jeq]
  | .bool _, .null | .bool _, .num _ | .bool _, .str _ | .bool _, .arr _ | .bool _, .obj _ => by
      simp [jeq]
  | .num _, .null | .num _, .bool _ | .num _, .str _ | .num _, .arr _ | .num _, .obj _ => by
      simp [jeq]
  | .str _, .null | .str _, .bool _ | .str _, .num _ | .str _, .arr _ | .str _, .obj _ => by
      simp [jeq]
  | .arr _, .null | .arr _, .bool _ | .arr _, .num _ | .arr _, .str _ | .arr _, .obj _ => by
      simp [jeq]
  | .obj _, .null | .obj _, .bool _ | .obj _, .num _ | .obj _, .str _ | .obj _, .arr _ => by
      simp [jeq]
  | .bool a, .bool b => by simp [jeq]
  | .num a, .num b => by simp [jeq]
  | .str a, .str b => by simp [jeq]
  | .arr a, .arr b => by simp [jeq, leq_iff a b]
  | .obj a, .obj b => by simp [jeq, feq_iff a b]

theorem leq_iff : ∀ a b : List Json, leq a b = true ↔ a = b
  | [], [] => by simp [leq]
  | [], _ :: _ => by simp [leq]
  | _ :: _, [] => by simp [leq]
  | a :: as_, b :: bs => by
      simp [leq, jeq_iff a b, leq_iff as_ bs]

theorem feq_iff : ∀ a b : List (String × Json), feq a b = true ↔ a = b
  | [], [] => by simp [feq]
  | [], _ :: _ => by simp [feq]
  | _ :: _, [] => by simp [feq]
  | (k, v) :: as_, (k2, v2) :: bs => by
      simp [feq, jeq_iff v v2, feq_iff as_ bs, and_assoc]

end

instance : DecidableEq Json := fun a b =>
  decidable_of_iff (jeq a b = true) (jeq_iff a b)

/-- First-match association lookup: CPython `key in d` / `d[key]` on a dict,
whose keys are unique and insertion ordered. -/
def lookupField : List (String × Json) → String → Option Json
  | [], _ => none
  | (k, v) :: rest, key => if k = key then some v else lookupField rest key

/-- CPython truthiness of a JSON-decoded value: `None`, `False`, `0`, `""`,
`[]` and the empty dict are falsy, everything else is truthy. -/
def truthy : Json → Bool
  | .null => false
  | .bool b => b
  | .num n => decide (n ≠ 0)
  | .str s => decide (s ≠ "")
  | .arr items => !items.isEmpty
  | .obj fields => !fields.isEmpty

/-- `x is None` — the test the searches use on intermediate results. -/
def isNull : Json → Bool
  | .null => true
  | _ => false

/-- `d.get(key, default)` on a dict given by its field list. -/
def fget (fields : List (String × Json)) (key : String) (default : Json) : Json :=
  (lookupField fields key).getD default

mutual

/-- Size of a JSON value, the termination measure for the traversals below. -/
def jsize : Json → Nat
  | .obj fields => 1 + fsize fields
  | .arr items => 1 + lsize items
  | _ => 1

/-- Total size of a list of JSON values. -/
def lsize : List Json → Nat
  | [] => 0
  | j :: js => jsize j + lsize js

/-- Total size of a dict's field list (sizes of the values). -/
def fsize : List (String × Json) → Nat
  | [] => 0
  | (_, v) :: fs => jsize v + fsize fs

end

theorem jsize_pos : ∀ j : Json, 0 < jsize j := by
  intro j
  cases j <;> simp [jsize]

theorem lsize_append (a b : List Json) : lsize (a ++ b) = lsize a + lsize b := by
  induction a with
  | nil => simp [lsize]
  | cons j js ih => simp [lsize, ih]; omega

theorem lsize_reverse (a : List Json) : lsize a.reverse = lsize a := by
  induction a with
  | nil => rfl
  | cons j js ih => simp [lsize, List.reverse_cons, lsize_append, ih]; omega

/-! ## `search_context` — the recursive depth-first search
(`src/server/SoarBaseAPI.py`, lines 68–81).  A dict is checked for the key
first (`if key in json_obj: return json_obj[key]`), then each value is
searched recursively and the first result that `is not None` wins; lists are
searched element-wise.  Python `None` is `Json.null` here, so the
`result is not None` test is `≠ Json.null`. -/

mutual

def search_context : Json → String → Json
  | .obj fields, key =>
      match lookupField fields key with
      | some v => v
      | none => searchFields fields key
  | .arr items, key => searchItems items key
  | _, _ => .null

def searchFields : List (String × Json) → String → Json
  | [], _ => .null
  | (_, v) :: rest, key =>
      let r := search_context v key
      if isNull r then searchFields rest key else r

def searchItems : List Json → String → Json
  | [], _ => .null
  | j :: rest, key =>
      let r := search_context j key
      if isNull r then searchItems rest key else r

end

/-! ## `search_context_iterative` — the explicit work-stack search
(`src/server/SoarBaseAPI.py`, lines 50–66).  `stack.pop()` takes the *last*
element, and `stack.append` pushes the dict/list children in declaration
order, so children are visited in reverse order.  The Lean stack keeps its
top at the head, so the pushed children are the reversed dict/list values. -/

/-- `isinstance(value, (dict, list))` — only containers are pushed. -/
def isContainer : Json → Bool
  | .obj _ => true
  | .arr _ => true
  | _ => false

/-- The values of a dict, in insertion order (`current.values()`). -/
def fieldValues : List (String × Json) → List Json
  | [] => []
  | (_, v) :: fs => v :: fieldValues fs

theorem lsize_filter_le (l : List Json) : lsize (l.filter isContainer) ≤ lsize l := by
  induction l with
  | nil => simp [lsize]
  | cons j js ih =>
      by_cases h : isContainer j = true
      · simp [List.filter, h, lsize]; omega
      · simp [List.filter, h, lsize]
        have := jsize_pos j
        omega

theorem lsize_fieldValues (fs : List (String × Json)) : lsize (fieldValues fs) = fsize fs := by
  induction fs with
  | nil => rfl
  | cons kv rest ih => cases kv; simp [fieldValues, lsize, fsize, ih]

def searchIterAux (key : String) : List Json → Json
  | [] => .null
  | cur :: rest =>
      match cur with
      | .obj fields =>
          match lookupField fields key with
          | some v => v
          | none =>
              searchIterAux key ((((fieldValues fields).filter isContainer).reverse) ++ rest)
      | .arr items =>
          searchIterAux key (((items.filter isContainer).reverse) ++ rest)
      | .null => searchIterAux key rest
      | .bool _ => searchIterAux key rest
      | .num _ => searchIterAux key rest
      | .str _ => searchIterAux key rest
termination_by stack => lsize stack
decreasing_by
  · simp only [lsize_append, lsize_reverse, lsize, jsize]
    have h1 := lsize_filter_le (fieldValues fields)
    rw [lsize_fieldValues] at h1
    omega
  · simp only [lsize_append, lsize_reverse, lsize, jsize]
    have h1 := lsize_filter_le items
    omega
  all_goals simp only [lsize, jsize]; omega

def search_context_iterative (json_obj : Json) (key : String) : Json :=
  searchIterAux key [json_obj]

/-! ## `search_context_path` — dot-delimited downward walk
(`src/server/SoarBaseAPI.py`, lines 83–91).  `key_path.split('.')` is CPython
`str.split` with an explicit separator: `"".split('.') == ['']` and adjacent
separators produce empty segments.  `splitChars` embeds exactly that. -/

/-- CPython `s.split(sep)` for a one-character separator, on the character
list: splitting the empty string yields one empty group, and each separator
occurrence closes the current group. -/
def splitChars (sep : Char) : List Char → List (List Char)
  | [] => [[]]
  | c :: cs =>
      let r := splitChars sep cs
      if c = sep then [] :: r
      else
        match r with
        | g :: gs => (c :: g) :: gs
        | [] => [[c]]

/-- `key_path.split('.')` as a list of strings. -/
def pySplit (s : String) (sep : Char) : List String :=
  (splitChars sep s.data).map (fun cs => String.mk cs)

/-- The walking loop of `search_context_path`: follow each segment through a
dict, returning `None` as soon as the current value is not a dict or lacks
the segment. -/
def walkKeys : List String → Json → Json
  | [], cur => cur
  | k :: ks, cur =>
      match cur with
      | .obj fields =>
          match lookupField fields k with
          | some v => walkKeys ks v
          | none => .null
      | _ => .null

def search_context_path (json_obj : Json) (keyPath : String) : Json :=
  walkKeys (pySplit keyPath '.') json_obj

/-! ## Key-occurrence counting and the unique occurrence's value.
`keyCount j key` counts the dict nodes of `j` that carry `key`; `occVal`
returns the first occurrence's stored value in declaration order.  They are
the yardstick for comparing the two search strategies: the spec claims they
agree whenever the key occurs at most once. -/

mutual

/-- How many dict nodes inside `j` have `key` among their keys. -/
def keyCount : Json → String → Nat
  | .obj fields, key =>
      (if (lookupField fields key).isSome then 1 else 0) + fieldsCount fields key
  | .arr items, key => itemsCount items key
  | _, _ => 0

/-- Total key occurrences below a dict's field list. -/
def fieldsCount : List (String × Json) → String → Nat
  | [], _ => 0
  | (_, v) :: fs, key => keyCount v key + fieldsCount fs key

/-- Total key occurrences in a list of values. -/
def itemsCount : List Json → String → Nat
  | [], _ => 0
  | j :: js, key => keyCount j key + itemsCount js key

end

mutual

/-- The stored value of the first `key` occurrence in `j` (declaration
order), if any. -/
def occVal : Json → String → Option Json
  | .obj fields, key =>
      match lookupField fields key with
      | some v => some v
      | none => fieldsOcc fields key
  | .arr items, key => itemsOcc items key
  | _, _ => none

/-- First occurrence below a dict's field list. -/
def fieldsOcc : List (String × Json) → String → Option Json
  | [], _ => none
  | (_, v) :: fs, key =>
      match occVal v key with
      | some r => some r
      | none => fieldsOcc fs key

/-- First occurrence in a list of values. -/
def itemsOcc : List Json → String → Option Json
  | [], _ => none
  | j :: js, key =>
      match occVal j key with
      | some r => some r
      | none => itemsOcc js key

end

mutual

theorem occVal_none_iff : ∀ (j : Json) (key : String), occVal j key = none ↔ keyCount j key = 0
  | .obj fields, key => by
      cases hl : lookupField fields key with
      | some v => simp [occVal, keyCount, hl]
      | none => simp [occVal, keyCount, hl, fieldsOcc_none_iff fields key]
  | .arr items, key => by simp [occVal, keyCount, itemsOcc_none_iff items key]
  | .null, key => by simp [occVal, keyCount]
  | .bool _, key => by simp [occVal, keyCount]
  | .num _, key => by simp [occVal, keyCount]
  | .str _, key => by simp [occVal, keyCount]

theorem fieldsOcc_none_iff :
    ∀ (fs : List (String × Json)) (key : String), fieldsOcc fs key = none ↔ fieldsCount fs key = 0
  | [], key => by simp [fieldsOcc, fieldsCount]
  | (k, v) :: fs, key => by
      cases ho : occVal v key with
      | some r =>
          have hv : ¬ keyCount v key = 0 := by
            intro h0
            rw [← occVal_none_iff v key] at h0
            simp [h0] at ho
          simp [fieldsOcc, fieldsCount, ho]
          omega
      | none =>
          have hv : keyCount v key = 0 := (occVal_none_iff v key).mp ho
          simp [fieldsOcc, fieldsCount, ho, hv, fieldsOcc_none_iff fs key]

theorem itemsOcc_none_iff :
    ∀ (l : List Json) (key : String), itemsOcc l key = none ↔ itemsCount l key = 0
  | [], key => by simp [itemsOcc, itemsCount]
  | j :: js, key => by
      cases ho : occVal j key with
      | some r =>
          have hv : ¬ keyCount j key = 0 := by
            intro h0
            rw [← occVal_none_iff j key] at h0
            simp [h0] at ho
          simp [itemsOcc, itemsCount, ho]
          omega
      | none =>
          have hv : keyCount j key = 0 := (occVal_none_iff j key).mp ho
          simp [itemsOcc, itemsCount, ho, hv, itemsOcc_none_iff js key]

end

mutual

theorem search_count_zero :
    ∀ (j : Json) (key : String), keyCount j key = 0 → search_context j key = Json.null
  | .obj fields, key, h => by
      cases hl : lookupField fields key with
      | some v => simp [keyCount, hl] at h
      | none =>
          have hf : fieldsCount fields key = 0 := by simp [keyCount, hl] at h; omega
          simp [search_context, hl, searchFields_count_zero fields key hf]
  | .arr items, key, h => by
      have hi : itemsCount items key = 0 := by simpa [keyCount] using h
      simp [search_context, searchItems_count_zero items key hi]
  | .null, key, h => by simp [search_context]
  | .bool _, key, h => by simp [search_context]
  | .num _, key, h => by simp [search_context]
  | .str _, key, h => by simp [search_context]

theorem searchFields_count_zero :
    ∀ (fs : List (String × Json)) (key : String),
      fieldsCount fs key = 0 → searchFields fs key = Json.null
  | [], key, _ => by simp [searchFields]
  | (k, v) :: fs, key, h => by
      have hv : keyCount v key = 0 := by simp [fieldsCount] at h; omega
      have hf : fieldsCount fs key = 0 := by simp [fieldsCount] at h; omega
      simp [searchFields, search_count_zero v key hv, isNull,
        searchFields_count_zero fs key hf]

theorem searchItems_count_zero :
    ∀ (l : List Json) (key : String),
      itemsCount l key = 0 → searchItems l key = Json.null
  | [], key, _ => by simp [searchItems]
  | j :: js, key, h => by
      have hv : keyCount j key = 0 := by simp [itemsCount] at h; omega
      have hf : itemsCount js key = 0 := by simp [itemsCount] at h; omega
      simp [searchItems, search_count_zero j key hv, isNull,
        searchItems_count_zero js key hf]

end

mutual

theorem search_count_one :
    ∀ (j : Json) (key : String) (v : Json),
      keyCount j key = 1 → occVal j key = some v → search_context j key = v
  | .obj fields, key, v, h1, h2 => by
      cases hl : lookupField fields key with
      | some w =>
          have hw : w = v := by simp [occVal, hl] at h2; exact h2
          simp [search_context, hl, hw]
      | none =>
          have hf : fieldsCount fields key = 1 := by simp [keyCount, hl] at h1; omega
          have ho : fieldsOcc fields key = some v := by simpa [occVal, hl] using h2
          simp [search_context, hl, searchFields_count_one fields key v hf ho]
  | .arr items, key, v, h1, h2 => by
      have hf : itemsCount items key = 1 := by simpa [keyCount] using h1
      have ho : itemsOcc items key = some v := by simpa [occVal] using h2
      simp [search_context, searchItems_count_one items key v hf ho]
  | .null, key, v, h1, h2 => by simp [keyCount] at h1
  | .bool _, key, v, h1, h2 => by simp [keyCount] at h1
  | .num _, key, v, h1, h2 => by simp [keyCount] at h1
  | .str _, key, v, h1, h2 => by simp [keyCount] at h1

theorem searchFields_count_one :
    ∀ (fs : List (String × Json)) (key : String) (v : Json),
      fieldsCount fs key = 1 → fieldsOcc fs key = some v → searchFields fs key = v
  | [], key, v, h1, _ => by simp [fieldsCount] at h1
  | (k, w) :: fs, key, v, h1, h2 => by
      cases ho : occVal w key with
      | some r =>
          have hr : r = v := by simp [fieldsOcc, ho] at h2; exact h2
          have hw1 : keyCount w key ≠ 0 := by
            intro h0
            rw [← occVal_none_iff w key] at h0
            simp [h0] at ho
          have hw : keyCount w key = 1 := by simp [fieldsCount] at h1; omega
          have hrest : fieldsCount fs key = 0 := by simp [fieldsCount] at h1; omega
          have hs : search_context w key = v := search_count_one w key v hw (hr ▸ ho)
          by_cases hv : v = Json.null
          · subst hv
            simp [searchFields, hs, isNull, searchFields_count_zero fs key hrest]
          · have hnv : isNull v = false := by cases v <;> simp_all [isNull]
            simp [searchFields, hs, hnv]
      | none =>
          have hw : keyCount w key = 0 := (occVal_none_iff w key).mp ho
          have hrest : fieldsCount fs key = 1 := by simp [fieldsCount, hw] at h1 ⊢; omega
          have hro : fieldsOcc fs key = some v := by simpa [fieldsOcc, ho] using h2
          simp [searchFields, search_count_zero w key hw, isNull,
            searchFields_count_one fs key v hrest hro]

theorem searchItems_count_one :
    ∀ (l : List Json) (key : String) (v : Json),
      itemsCount l key = 1 → itemsOcc l key = some v → searchItems l key = v
  | [], key, v, h1, _ => by simp [itemsCount] at h1
  | w :: js, key, v, h1, h2 => by
      cases ho : occVal w key with
      | some r =>
          have hr : r = v := by simp [itemsOcc, ho] at h2; exact h2
          have hw1 : keyCount w key ≠ 0 := by
            intro h0
            rw [← occVal_none_iff w key] at h0
            simp [h0] at ho
          have hw : keyCount w key = 1 := by simp [itemsCount] at h1; omega
          have hrest : itemsCount js key = 0 := by simp [itemsCount] at h1; omega
          have hs : search_context w key = v := search_count_one w key v hw (hr ▸ ho)
          by_cases hv : v = Json.null
          · subst hv
            simp [searchItems, hs, isNull, searchItems_count_zero js key hrest]
          · have hnv : isNull v = false := by cases v <;> simp_all [isNull]
            simp [searchItems, hs, hnv]
      | none =>
          have hw : keyCount w key = 0 := (occVal_none_iff w key).mp ho
          have hrest : itemsCount js key = 1 := by simp [itemsCount, hw] at h1 ⊢; omega
          have hro : itemsOcc js key = some v := by simpa [itemsOcc, ho] using h2
          simp [searchItems, search_count_zero w key hw, isNull,
            searchItems_count_one js key v hrest hro]

end

theorem keyCount_nonContainer (j : Json) (key : String) (h : isContainer j = false) :
    keyCount j key = 0 := by
  cases j <;> simp [isContainer] at h ⊢ <;> simp [keyCount]

theorem itemsCount_append (a b : List Json) (key : String) :
    itemsCount (a ++ b) key = itemsCount a key + itemsCount b key := by
  induction a with
  | nil => simp [itemsCount]
  | cons j js ih => simp [itemsCount, ih]; omega

theorem itemsCount_reverse (a : List Json) (key : String) :
    itemsCount a.reverse key = itemsCount a key := by
  induction a with
  | nil => rfl
  | cons j js ih => simp [List.reverse_cons, itemsCount_append, itemsCount, ih]; omega

theorem itemsCount_filter_isContainer (l : List Json) (key : String) :
    itemsCount (l.filter isContainer) key = itemsCount l key := by
  induction l with
  | nil => simp [itemsCount]
  | cons j js ih =>
      cases h : isContainer j with
      | true => simp [List.filter, h, itemsCount, ih]
      | false =>
          simp [List.filter, h, itemsCount, ih, keyCount_nonContainer j key h]

theorem fieldsCount_eq_itemsCount (fs : List (String × Json)) (key : String) :
    itemsCount (fieldValues fs) key = fieldsCount fs key := by
  induction fs with
  | nil => rfl
  | cons kv rest ih => cases kv; simp [fieldValues, itemsCount, fieldsCount, ih]

theorem itemsCount_zero_mem {l : List Json} {key : String} (h : itemsCount l key = 0) :
    ∀ e ∈ l, keyCount e key = 0 := by
  induction l with
  | nil => intro e he; cases he
  | cons j js ih =>
      intro e he
      simp [itemsCount] at h
      rcases List.mem_cons.mp he with rfl | hm
      · omega
      · exact ih (by omega) e hm

theorem occVal_some_container {j : Json} {key : String} {v : Json}
    (h : occVal j key = some v) : isContainer j = true := by
  cases j <;> simp [occVal] at h <;> simp [isContainer]

theorem fieldsOcc_mem {fs : List (String × Json)} {key : String} {v : Json}
    (h : fieldsOcc fs key = some v) : ∃ c ∈ fieldValues fs, occVal c key = some v := by
  induction fs with
  | nil => simp [fieldsOcc] at h
  | cons kv rest ih =>
      obtain ⟨k, w⟩ := kv
      cases ho : occVal w key with
      | some r =>
          simp [fieldsOcc, ho] at h
          exact ⟨w, by simp [fieldValues], by rw [ho, h]⟩
      | none =>
          simp [fieldsOcc, ho] at h
          obtain ⟨c, hc, hcv⟩ := ih h
          exact ⟨c, by simp [fieldValues, hc], hcv⟩

theorem itemsOcc_mem {l : List Json} {key : String} {v : Json}
    (h : itemsOcc l key = some v) : ∃ c ∈ l, occVal c key = some v := by
  induction l with
  | nil => simp [itemsOcc] at h
  | cons w rest ih =>
      cases ho : occVal w key with
      | some r =>
          simp [itemsOcc, ho] at h
          exact ⟨w, by simp, by rw [ho, h]⟩
      | none =>
          simp [itemsOcc, ho] at h
          obtain ⟨c, hc, hcv⟩ := ih h
          exact ⟨c, by simp [hc], hcv⟩

theorem iterAux_count_zero (key : String) :
    ∀ (n : Nat) (stack : List Json), lsize stack ≤ n → itemsCount stack key = 0 →
      searchIterAux key stack = Json.null := by
  intro n
  induction n with
  | zero =>
      intro stack hs _
      match stack with
      | [] => simp [searchIterAux]
      | cur :: rest =>
          exfalso
          have := jsize_pos cur
          simp [lsize] at hs
          omega
  | succ n ih =>
      intro stack hs hc
      match stack with
      | [] => simp [searchIterAux]
      | cur :: rest =>
          have hcur : keyCount cur key = 0 := by simp [itemsCount] at hc; omega
          have hrest : itemsCount rest key = 0 := by simp [itemsCount] at hc; omega
          cases cur with
          | obj fields =>
              cases hl : lookupField fields key with
              | some w => simp [keyCount, hl] at hcur
              | none =>
                  have hfc : fieldsCount fields key = 0 := by
                    simp [keyCount, hl] at hcur; omega
                  have hsz : lsize ((((fieldValues fields).filter isContainer).reverse) ++ rest) ≤ n := by
                    have h1 := lsize_filter_le (fieldValues fields)
                    rw [lsize_fieldValues] at h1
                    simp [lsize_append, lsize_reverse, lsize, jsize] at hs ⊢
                    omega
                  have hct : itemsCount ((((fieldValues fields).filter isContainer).reverse) ++ rest) key = 0 := by
                    rw [itemsCount_append, itemsCount_reverse, itemsCount_filter_isContainer,
                      fieldsCount_eq_itemsCount]
                    omega
                  simp only [searchIterAux, hl]
                  exact ih _ hsz hct
          | arr items =>
              have hic : itemsCount items key = 0 := by simpa [keyCount] using hcur
              have hsz : lsize (((items.filter isContainer).reverse) ++ rest) ≤ n := by
                have h1 := lsize_filter_le items
                simp [lsize_append, lsize_reverse, lsize, jsize] at hs ⊢
                omega
              have hct : itemsCount (((items.filter isContainer).reverse) ++ rest) key = 0 := by
                rw [itemsCount_append, itemsCount_reverse, itemsCount_filter_isContainer]
                omega
              simp only [searchIterAux]
              exact ih _ hsz hct
          | null =>
              simp only [searchIterAux]
              exact ih rest (by simp [lsize, jsize] at hs ⊢; omega) hrest
          | bool b =>
              simp only [searchIterAux]
              exact ih rest (by simp [lsize, jsize] at hs ⊢; omega) hrest
          | num m =>
              simp only [searchIterAux]
              exact ih rest (by simp [lsize, jsize] at hs ⊢; omega) hrest
          | str s =>
              simp only [searchIterAux]
              exact ih rest (by simp [lsize, jsize] at hs ⊢; omega) hrest

theorem iterAux_count_one (key : String) :
    ∀ (n : Nat) (stack : List Json) (v : Json), lsize stack ≤ n →
      itemsCount stack key = 1 → (∃ e ∈ stack, occVal e key = some v) →
      searchIterAux key stack = v := by
  intro n
  induction n with
  | zero =>
      intro stack v hs hc he
      match stack with
      | [] => simp [itemsCount] at hc
      | cur :: rest =>
          exfalso
          have := jsize_pos cur
          simp [lsize] at hs
          omega
  | succ n ih =>
      intro stack v hs hc he
      match stack with
      | [] => obtain ⟨e, he0, _⟩ := he; cases he0
      | cur :: rest =>
          obtain ⟨e, hemem, heocc⟩ := he
          cases cur with
          | obj fields =>
              cases hl : lookupField fields key with
              | some w =>
                  -- the popped dict carries the key: it is the unique occurrence
                  have hcur1 : keyCount (Json.obj fields) key ≥ 1 := by
                    simp [keyCount, hl]
                  have hrest0 : itemsCount rest key = 0 := by
                    simp [itemsCount] at hc; omega
                  have hecur : e = Json.obj fields := by
                    rcases List.mem_cons.mp hemem with rfl | hm
                    · rfl
                    · exfalso
                      have h0 := itemsCount_zero_mem hrest0 e hm
                      rw [← occVal_none_iff e key] at h0
                      simp [h0] at heocc
                  have hwv : w = v := by
                    subst hecur
                    simp [occVal, hl] at heocc
                    exact heocc
                  simp [searchIterAux, hl, hwv]
              | none =>
                  have hstack1 :
                      itemsCount ((((fieldValues fields).filter isContainer).reverse) ++ rest) key = 1 := by
                    rw [itemsCount_append, itemsCount_reverse, itemsCount_filter_isContainer,
                      fieldsCount_eq_itemsCount]
                    simp [itemsCount, keyCount, hl] at hc ⊢
                    omega
                  have hsz : lsize ((((fieldValues fields).filter isContainer).reverse) ++ rest) ≤ n := by
                    have h1 := lsize_filter_le (fieldValues fields)
                    rw [lsize_fieldValues] at h1
                    simp [lsize_append, lsize_reverse, lsize, jsize] at hs ⊢
                    omega
                  have hex : ∃ e2 ∈ (((fieldValues fields).filter isContainer).reverse) ++ rest,
                      occVal e2 key = some v := by
                    rcases List.mem_cons.mp hemem with rfl | hm
                    · have hfo : fieldsOcc fields key = some v := by
                        simpa [occVal, hl] using heocc
                      obtain ⟨c, hcm, hco⟩ := fieldsOcc_mem hfo
                      refine ⟨c, ?_, hco⟩
                      apply List.mem_append_left
                      rw [List.mem_reverse]
                      exact List.mem_filter.mpr ⟨hcm, occVal_some_container hco⟩
                    · exact ⟨e, List.mem_append_right _ hm, heocc⟩
                  simp only [searchIterAux, hl]
                  exact ih _ v hsz hstack1 hex
          | arr items =>
              have hstack1 :
                  itemsCount (((items.filter isContainer).reverse) ++ rest) key = 1 := by
                rw [itemsCount_append, itemsCount_reverse, itemsCount_filter_isContainer]
                simp [itemsCount, keyCount] at hc ⊢
                omega
              have hsz : lsize (((items.filter isContainer).reverse) ++ rest) ≤ n := by
                have h1 := lsize_filter_le items
                simp [lsize_append, lsize_reverse, lsize, jsize] at hs ⊢
                omega
              have hex : ∃ e2 ∈ ((items.filter isContainer).reverse) ++ rest,
                  occVal e2 key = some v := by
                rcases List.mem_cons.mp hemem with rfl | hm
                · have hio : itemsOcc items key = some v := by
                    simpa [occVal] using heocc
                  obtain ⟨c, hcm, hco⟩ := itemsOcc_mem hio
                  refine ⟨c, ?_, hco⟩
                  apply List.mem_append_left
                  rw [List.mem_reverse]
                  exact List.mem_filter.mpr ⟨hcm, occVal_some_container hco⟩
                · exact ⟨e, List.mem_append_right _ hm, heocc⟩
              simp only [searchIterAux]
              exact ih _ v hsz hstack1 hex
          | null =>
              have hm : e ∈ rest := by
                rcases List.mem_cons.mp hemem with rfl | hm
                · simp [occVal] at heocc
                · exact hm
              simp only [searchIterAux]
              exact ih rest v (by simp [lsize, jsize] at hs ⊢; omega)
                (by simp [itemsCount, keyCount] at hc ⊢; omega) ⟨e, hm, heocc⟩
          | bool b =>
              have hm : e ∈ rest := by
                rcases List.mem_cons.mp hemem with rfl | hm
                · simp [occVal] at heocc
                · exact hm
              simp only [searchIterAux]
              exact ih rest v (by simp [lsize, jsize] at hs ⊢; omega)
                (by simp [itemsCount, keyCount] at hc ⊢; omega) ⟨e, hm, heocc⟩
          | num m =>
              have hm : e ∈ rest := by
                rcases List.mem_cons.mp hemem with rfl | hm
                · simp [occVal] at heocc
                · exact hm
              simp only [searchIterAux]
              exact ih rest v (by simp [lsize, jsize] at hs ⊢; omega)
                (by simp [itemsCount, keyCount] at hc ⊢; omega) ⟨e, hm, heocc⟩
          | str s =>
              have hm : e ∈ rest := by
                rcases List.mem_cons.mp hemem with rfl | hm
                · simp [occVal] at heocc
                · exact hm
              simp only [searchIterAux]
              exact ih rest v (by simp [lsize, jsize] at hs ⊢; omega)
                (by simp [itemsCount, keyCount] at hc ⊢; omega) ⟨e, hm, heocc⟩

/-! ## Specification relation for the path walk.
`PathReaches d ks v` holds when following the segments `ks` strictly
downward through successive dicts, starting at `d`, ends at the value `v`:
the spec's description of `search_context_path`.  It is deterministic and
never indexes into sequences. -/

inductive PathReaches : Json → List String → Json → Prop where
  | nil (j : Json) : PathReaches j [] j
  | cons {fields : List (String × Json)} {k : String} {ks : List String} {u v : Json} :
      lookupField fields k = some u → PathReaches u ks v →
      PathReaches (.obj fields) (k :: ks) v

theorem walkKeys_reaches :
    ∀ (ks : List String) (d v : Json), PathReaches d ks v → walkKeys ks d = v := by
  intro ks
  induction ks with
  | nil =>
      intro d v h
      cases h
      rfl
  | cons k ks ih =>
      intro d v h
      cases h with
      | cons hl hrest =>
          simp [walkKeys, hl]
          exact ih _ _ hrest

theorem walkKeys_not_reaches :
    ∀ (ks : List String) (d : Json), (∀ v, ¬ PathReaches d ks v) → walkKeys ks d = Json.null := by
  intro ks
  induction ks with
  | nil =>
      intro d h
      exact absurd (PathReaches.nil d) (h d)
  | cons k ks ih =>
      intro d h
      cases d with
      | obj fields =>
          cases hl : lookupField fields k with
          | some u =>
              simp [walkKeys, hl]
              exact ih u (fun v hv => h v (PathReaches.cons hl hv))
          | none => simp [walkKeys, hl]
      | null => rfl
      | bool b => rfl
      | num n => rfl
      | str s => rfl
      | arr items => rfl

/-! ## `load_context` (`src/server/SoarBaseAPI.py`, lines 20–37).
The stdin state of a process invocation: either the stream is interactive
(`sys.stdin.isatty()`, nothing is read) or it is piped and `json.load`
either succeeds with a document or raises.  `load_context` starts from
`input_data = None`, fills it only when stdin is non-interactive and parses,
and swallows every error — so it returns the parsed document or Python
`None` (never the empty dict). -/

inductive StdinState where
  | tty
  | piped (parsed : Option Json)

def load_context : StdinState → Option Json
  | .tty => none
  | .piped none => none
  | .piped (some j) => some j

/-- `base_context()` returns `json.dumps({})`, the canonical empty-context
string (`src/server/SoarBaseAPI.py`, lines 16–18). -/
def base_context : String := "\x7b\x7d"

/-! ## Integration Config Resolver
(`src/server/SoarBaseAPI.py`, lines 94–156).  The filesystem is an oracle:
for a path, `none` means `os.path.exists` is false, `some none` means the
file exists but opening/parsing it raises, and `some (some j)` means it
parses to `j`.  The HTTP client is an oracle from the request URL to either
a `RequestException` (`none`) or a response with a status code and a parsed
JSON body. -/

def FileSys : Type := String → Option (Option Json)

structure HttpResponse where
  status : Nat
  body : Json

def ConfigNet : Type := String → Option HttpResponse

/-- The ordered candidate config paths of `get_secauto_config`. -/
def config_paths : List String :=
  ["data/integration_config.json",
   "SoarAuto/data/integration_config.json",
   "../SoarAuto/data/integration_config.json"]

/-- One iteration of the `for config_path in config_paths` loop: the file
must exist, parse to a dict (`config.get` on a non-dict raises and the
`except` clause continues the loop), and hold truthy `secauto_url` and
`secauto_api_key` values. -/
def tryConfigPath (fs : FileSys) (p : String) : Option (Json × Json) :=
  match fs p with
  | some (some (Json.obj fields)) =>
      let url := fget fields "secauto_url" .null
      let api_key := fget fields "secauto_api_key" .null
      if truthy url && truthy api_key then some (url, api_key) else none
  | _ => none

/-- `get_secauto_config()`: first qualifying candidate wins, otherwise the
default address with no credential (`None`). -/
def get_secauto_config (fs : FileSys) : Json × Json :=
  go config_paths
where
  go : List String → Json × Json
    | [] => (Json.str "http://localhost:8080", Json.null)
    | p :: ps =>
        match tryConfigPath fs p with
        | some r => r
        | none => go ps

/-- Python `str()` of a JSON-decoded value, as used in f-strings.  The
rendering of floats, lists and dicts is abbreviated (no property proved here
depends on it); scalars follow CPython (`None`, `True`, `False`, the string
itself). -/
def pythonStr : Json → String
  | .null => "None"
  | .bool true => "True"
  | .bool false => "False"
  | .num n => if n.den = 1 then toString n.num else toString n
  | .str s => s
  | .arr _ => "[...]"
  | .obj _ => "\x7b...\x7d"

/-- The URL of the remote integration-config fetch,
`f"{secauto_url}/integrations/{integration_name}"`. -/
def configRequestUrl (fs : FileSys) (name : String) : String :=
  pythonStr (get_secauto_config fs).1 ++ "/integrations/" ++ name

/-- `get_integration_config(name)`: the outcome and the list of HTTP
requests the call issued (empty when the credential check fails first).
A missing credential short-circuits; a `RequestException`, a non-200 status
and an object body without truthy `success` and `integration` entries all
yield `None` (`.ok none`; the non-200 case falls off the end of the Python
function).  A 200 response whose body parses to a non-dict makes
`data.get("success")` raise `AttributeError`, which the
`except requests.exceptions.RequestException` clause does *not* catch:
that is the `.error` outcome, an exception propagating to the caller. -/
def get_integration_config (fs : FileSys) (net : ConfigNet) (name : String) :
    Except Unit (Option Json) × List String :=
  let cfg := get_secauto_config fs
  if !(truthy cfg.2) then (.ok none, [])
  else
    let url := configRequestUrl fs name
    match net url with
    | none => (.ok none, [url])
    | some resp =>
        if resp.status = 200 then
          match resp.body with
          | .obj fields =>
              if truthy (fget fields "success" .null) &&
                 truthy (fget fields "integration" .null) then
                (.ok (some (fget fields "integration" .null)), [url])
              else (.ok none, [url])
          | _ => (.error (), [url])
        else (.ok none, [url])

/-- Is the value a dict?  (`data.get` is only defined on dicts.) -/
def isObj : Json → Bool
  | .obj _ => true
  | _ => false

/-! ## Capability Shim & Hot-Reload Supervisor (`src/user/sitecustomize.py`).
A module on disk is a version marker plus the set of attribute names it
defines; `builtins` capability bindings map a name to the version of the
module it was bound from.  `import SoarBaseAPI` either succeeds with the
module (`some m`) or raises `ImportError` (`none`).  Each
`builtins.x = SoarBaseAPI.x` line fetches the attribute, raising
`AttributeError` when the module does not define it. -/

structure PyModule where
  version : Nat
  attrs : List String

def Bindings : Type := String → Option Nat

def setBinding (b : Bindings) (n : String) (ver : Nat) : Bindings :=
  fun m => if m = n then some ver else b m

/-- The attribute names `reload_soar_api` rebinds, in source order
(`src/user/sitecustomize.py`, lines 56–66). -/
def reloadBindNames : List String :=
  ["search_context", "search_context_iterative", "search_context_path",
   "load_context", "base_context", "return_context",
   "get_secauto_config", "get_integration_config",
   "get_cache", "set_cache", "delete_cache"]

/-- The attribute names the initial import block binds, in source order
(`src/user/sitecustomize.py`, lines 100–111).  The two local functions
`reload_soar_api` and `check_and_reload` bound in between are not module
attributes and cannot fail, so they are not tracked. -/
def initialBindNames : List String :=
  ["search_context", "search_context_iterative", "search_context_path",
   "load_context", "return_context",
   "get_secauto_config", "get_integration_config",
   "get_cache", "set_cache", "delete_cache"]

/-- Run the `builtins.x = SoarBaseAPI.x` assignments in order.  A missing
attribute raises `AttributeError` there (`false` outcome), leaving the names
already processed rebound and the rest untouched. -/
def bindAttrs (m : PyModule) : List String → Bindings → Bool × Bindings
  | [], b => (true, b)
  | n :: ns, b =>
      if n ∈ m.attrs then bindAttrs m ns (setBinding b n m.version)
      else (false, b)

/-- `reload_soar_api()` (`src/user/sitecustomize.py`, lines 43–72): delete
the module from `sys.modules`, re-import (`importResult`), rebind.  The
whole body is wrapped in `except Exception`, so it never raises: it returns
`False` instead, with whatever bindings were already made. -/
def reload_soar_api (importResult : Option PyModule) (b : Bindings) : Bool × Bindings :=
  match importResult with
  | none => (false, b)
  | some m => bindAttrs m reloadBindNames (setBinding b "SoarBaseAPI" m.version)

/-- Outcome of the initial `sitecustomize` import block: either it completes
(possibly by catching an `ImportError`), or a non-`ImportError` exception
escapes the activation path with the bindings made so far. -/
inductive ActivationOutcome where
  | ok (b : Bindings)
  | raised (b : Bindings)

def isRaised : ActivationOutcome → Bool
  | .raised _ => true
  | .ok _ => false

/-- The initial import block (`src/user/sitecustomize.py`, lines 91–130).
Only `except ImportError` guards it: an import failure is caught and
logged, but an `AttributeError` from a missing module attribute
propagates. -/
def initial_activation (importResult : Option PyModule) (b : Bindings) : ActivationOutcome :=
  match importResult with
  | none => .ok b
  | some m =>
      match bindAttrs m initialBindNames (setBinding b "SoarBaseAPI" m.version) with
      | (true, b2) => .ok b2
      | (false, b2) => .raised b2

/-- The module-level names `src/server/SoarBaseAPI.py` actually defines:
note the absence of `get_cache`, `set_cache` and `delete_cache`, which both
binding loops nevertheless reference. -/
def soarBaseApiAttrs : List String :=
  ["base_context", "load_context", "return_context", "update_context",
   "search_context_iterative", "search_context", "search_context_path",
   "get_secauto_config", "get_integration_config"]

/-- Supervisor state: the `last_modified_time` global (absent until the
first `check_and_reload` call records it) and the capability bindings. -/
structure SupState where
  lastModified : Option Nat
  bindings : Bindings

/-- Environment of one `check_and_reload()` call: whether the backing file
exists, its current mtime, and what re-importing it would yield. -/
structure FileEnv where
  fileExists : Bool
  mtime : Nat
  importResult : Option PyModule

/-- `check_and_reload()` (`src/user/sitecustomize.py`, lines 74–89): no-op
when the file is absent; the first call only records the mtime; later calls
reload exactly when the mtime is strictly newer than the recorded one,
recording the new mtime either way. -/
def check_and_reload (env : FileEnv) (s : SupState) : SupState :=
  if !env.fileExists then s
  else
    match s.lastModified with
    | none => { s with lastModified := some env.mtime }
    | some t =>
        if t < env.mtime then
          { lastModified := some env.mtime,
            bindings := (reload_soar_api env.importResult s.bindings).2 }
        else s

/-! ## The `virustotal_url_scanner` automation
(`src/automations/virustotal_url_scanner.py`, `main`, lines 38–194) and the
constructor path of `VirusTotalIntegration`
(`src/integrations/virustotal_integration.py`, lines 37–66).

`main` is embedded as a trace-producing function: it records every document
printed by `return_context`, every `get_integration_config` invocation,
every HTTP request that invocation issued, and every URL handed to
`vt.scan_url`.  The two `return result` statements after the early
`return_context(result)` calls are commented out in the source, so control
falls through both early-exit branches.

`vt.scan_url` itself (network-bound, a different component) is abstracted
as an oracle giving the dict it returns; every `return` in its source is a
dict literal, so the oracle's codomain is a field list. -/

structure RunTrace where
  docs : List Json
  configFetches : List String
  httpRequests : List String
  scans : List String

/-- `for url in urls`: what CPython iteration yields per value — list
elements, one-character strings of a string, the keys of a dict; iterating
`None`, a bool or a number raises `TypeError` (`none`). -/
def iterElems : Json → Option (List Json)
  | .arr items => some items
  | .str s => some (s.data.map (fun c => Json.str (String.mk [c])))
  | .obj fields => some (fields.map (fun kv => Json.str kv.1))
  | _ => none

/-- A single-quote character, for Python `repr` of strings. -/
def squote : String := String.singleton (Char.ofNat 39)

/-- Python `str()` of a list of strings, as rendered into the f-string
error message (`repr` quoting; escapes inside the strings are not
modelled — no property proved here depends on them). -/
def pyReprStrList : List String → String
  | [] => "[]"
  | xs => "[" ++ String.intercalate ", " (xs.map (fun s => squote ++ s ++ squote)) ++ "]"

/-- The URL-filter loop body (`main`, lines 73–96), returning the additions
to `(valid_urls, invalid_urls)` for one element.  `json.loads` is the
`jparse` oracle; a parse failure falls through to treating the string as a
regular URL. -/
def classifyUrl (jparse : String → Option Json) (u : Json) : List String × List String :=
  match u with
  | .str s =>
      if s.startsWith "\x7b\x7b" && s.endsWith "\x7d\x7d" then ([], [s])
      else if s.trim ≠ "" then
        if s.startsWith "[" && s.endsWith "]" then
          match jparse s with
          | some (.arr items) =>
              (items.foldr
                (fun it acc =>
                  match it with
                  | .str t => if t.trim ≠ "" then t :: acc else acc
                  | _ => acc) [],
               [])
          | _ => ([s], [])
        else ([s], [])
      else ([], [s])
  | _ => ([], [pythonStr u])

/-- The integration's mutable configuration fields, with the constructor
defaults (`virustotal_integration.py`, lines 44–48). -/
structure VTState where
  api_key : Json
  base_url : Json
  timeout : Json
  retries : Json

def initVTState : VTState :=
  { api_key := .null, base_url := .str "https://www.virustotal.com/api/v3",
    timeout := .num 60, retries := .num 3 }

/-- `VirusTotalIntegration._load_config` (lines 53–66): the whole body is
wrapped in `except Exception: pass`, so a raising fetch, a truthy non-dict
config (whose `.get` raises before any assignment), and a non-dict
`settings` value (whose `.get` raises after `api_key`/`base_url` were
assigned) all leave the function silently. -/
def vtLoadConfig (cfg : Except Unit (Option Json)) (s : VTState) : VTState :=
  match cfg with
  | .error _ => s
  | .ok none => s
  | .ok (some c) =>
      if truthy c then
        match c with
        | .obj fields =>
            let s1 := { s with api_key := fget fields "apikey" .null,
                               base_url := fget fields "url" s.base_url }
            match fget fields "settings" (.obj []) with
            | .obj sf =>
                { s1 with timeout := fget sf "timeout" s1.timeout,
                          retries := fget sf "retries" s1.retries }
            | _ => s1
        | _ => s
      else s

/-- Accumulator of the scan loop (`main`, lines 120–123). -/
structure ScanAcc where
  results : List Json
  malicious : Rat
  clean : Int
  failed : Int

/-- Text of `str(e)` for an exception caught by the scan loop's
`except Exception` — runtime-dependent; no property proved here depends on
it. -/
def scanExcText : String := "unexpected error"

/-- The entry appended by the scan loop's `except` branch (`main`, lines
153–160); note the singular `verdict` key, unlike the other entries. -/
def exceptEntry (url : String) : Json :=
  .obj [("url", .str url), ("verdict", .obj []), ("success", .bool false),
        ("error_message", .str scanExcText)]

/-- One iteration of the scan loop (`main`, lines 126–160), on the dict
`vt.scan_url(url)` returned.  `.get` on a non-dict and `+=` on a
non-number raise inside the `try`, landing in the `except` branch. -/
def scanStep (acc : ScanAcc) (rf : List (String × Json)) (url : String) : ScanAcc :=
  let vr := fget rf "virustotal" (.obj [])
  match vr with
  | .obj vf =>
      let stats := fget vf "stats" (.obj [])
      let entry := Json.obj [("url", .str url), ("verdicts", stats),
                             ("success", fget vf "success" (.bool false)),
                             ("error_message", fget vf "error_message" (.str ""))]
      if truthy stats then
        match stats with
        | .obj sf =>
            match fget sf "malicious" (.num 0) with
            | .num m =>
                { results := acc.results ++ [entry],
                  malicious := acc.malicious + m,
                  clean := if m = 0 then acc.clean + 1 else acc.clean,
                  failed := acc.failed }
            | _ =>
                { acc with results := acc.results ++ [exceptEntry url],
                           failed := acc.failed + 1 }
        | _ =>
            { acc with results := acc.results ++ [exceptEntry url],
                       failed := acc.failed + 1 }
      else
        { results := acc.results ++ [entry], malicious := acc.malicious,
          clean := acc.clean, failed := acc.failed + 1 }
  | _ =>
      { acc with results := acc.results ++ [exceptEntry url],
                 failed := acc.failed + 1 }

/-- The entry appended for each invalid URL (`main`, lines 163–170). -/
def invalidEntry (url : String) : Json :=
  .obj [("url", .str url), ("verdicts", .obj []), ("success", .bool false),
        ("error_message", .str ("Template variable not resolved: " ++ url))]

/-- The first early-exit envelope (`main`, lines 51–62), emitted when
`urls` is falsy. -/
def noUrlsEnvelope : Json :=
  .obj [("virustotal", .obj [
    ("success", .bool false),
    ("error", .str "No URLs provided in context. Expected \"urls\" key or \"threat_intelligence.domains\""),
    ("results", .arr []),
    ("summary", .obj [
      ("total_urls", .num 0), ("scanned_urls", .num 0), ("malicious_urls", .num 0),
      ("clean_urls", .num 0), ("failed_scans", .num 0)])])]

/-- The second early-exit envelope (`main`, lines 99–110), emitted when no
valid URL remains; `total_urls` and `failed_scans` are both `len(urls)`. -/
def noValidUrlsEnvelope (invalid : List String) (urlsLen : Nat) : Json :=
  .obj [("virustotal", .obj [
    ("success", .bool false),
    ("error", .str ("No valid URLs provided. Invalid URLs: " ++ pyReprStrList invalid)),
    ("results", .arr []),
    ("summary", .obj [
      ("total_urls", .num urlsLen), ("scanned_urls", .num 0), ("malicious_urls", .num 0),
      ("clean_urls", .num 0), ("failed_scans", .num urlsLen)])])]

/-- `main()` of the automation, as a trace of its observable effects.
`none` models an uncaught exception aborting the process (`context.get` on
a non-dict context, or `for url in urls` over a non-iterable).  Because the
two early `return result` statements are commented out in the source,
control always reaches the integration construction and the final
`return_context`. -/
def vt_main (fs : FileSys) (net : ConfigNet)
    (scanOracle : VTState → String → List (String × Json))
    (jparse : String → Option Json) (timestamp : String) (ctx : Json) :
    Option RunTrace :=
  match ctx with
  | .obj ctxFields =>
      let urls := fget ctxFields "urls" (.arr [])
      let docs1 : List Json := if truthy urls then [] else [noUrlsEnvelope]
      match iterElems urls with
      | none => none
      | some elems =>
          let cls := elems.map (classifyUrl jparse)
          let valid := (cls.map Prod.fst).foldl (· ++ ·) []
          let invalid := (cls.map Prod.snd).foldl (· ++ ·) []
          let docs2 : List Json :=
            if valid.isEmpty then [noValidUrlsEnvelope invalid elems.length] else []
          let fetched := get_integration_config fs net "virustotal"
          let vtSt := vtLoadConfig fetched.1 initVTState
          let acc := valid.foldl (fun a url => scanStep a (scanOracle vtSt url) url)
            ⟨[], 0, 0, 0⟩
          let results := acc.results ++ invalid.map invalidEntry
          let validN : Int := valid.length
          let invalidN : Int := invalid.length
          let failedTotal : Int := acc.failed + invalidN
          let summary := Json.obj [
            ("total_urls", .num (elems.length : Rat)),
            ("scanned_urls", .num ((validN - failedTotal + invalidN : Int) : Rat)),
            ("malicious_urls", .num acc.malicious),
            ("clean_urls", .num (acc.clean : Rat)),
            ("failed_scans", .num (failedTotal : Rat)),
            ("invalid_urls", .num (invalidN : Rat)),
            ("success_rate", .num (if valid.isEmpty then 0
              else ((validN : Rat) - (failedTotal : Rat)) / (validN : Rat) * 100))]
          let finalDoc := Json.obj [("virustotal", .obj [
            ("success", .bool (decide (failedTotal = 0) && decide (validN > 0))),
            ("results", .arr results),
            ("summary", summary),
            ("timestamp", .str timestamp)])]
          some { docs := docs1 ++ docs2 ++ [finalDoc],
                 configFetches := ["virustotal"],
                 httpRequests := fetched.2,
                 scans := valid }
  | _ => none

/-! ## Concrete fixtures for the claim theorems, witnesses and
counterexamples. -/

/-- A filesystem whose first candidate config file resolves a valid address
and credential. -/
def fsCred : FileSys := fun p =>
  if p = "data/integration_config.json" then
    some (some (.obj [("secauto_url", .str "http://localhost:8080"),
                      ("secauto_api_key", .str "test-key")]))
  else none

/-- A filesystem with no candidate config file at all. -/
def fsEmpty : FileSys := fun _ => none

/-- An HTTP client on which every request raises a `RequestException`. -/
def netDown : ConfigNet := fun _ => none

/-- An HTTP client answering 200 with a JSON *array* body. -/
def netArrayBody : ConfigNet := fun _ => some ⟨200, .arr []⟩

/-- A scan oracle that is never consulted in the runs below. -/
def oracleEmpty : VTState → String → List (String × Json) := fun _ _ => []

/-- A `json.loads` oracle that is never consulted in the runs below. -/
def jparseNone : String → Option Json := fun _ => none

/-- The claim's automation input: context `\x7b"urls": []\x7d`. -/
def ctxEmptyUrls : Json := .obj [("urls", .arr [])]

/-- The final envelope the fallen-through run emits for that input. -/
def emptyRunFinalDoc : Json :=
  .obj [("virustotal", .obj [
    ("success", .bool false),
    ("results", .arr []),
    ("summary", .obj [("total_urls", .num 0), ("scanned_urls", .num 0),
      ("malicious_urls", .num 0), ("clean_urls", .num 0), ("failed_scans", .num 0),
      ("invalid_urls", .num 0), ("success_rate", .num 0)]),
    ("timestamp", .str "2024-01-01T00:00:00")])]

/-- Capability bindings all made from a module of version 0. -/
def bindingsZero : Bindings := fun _ => some 0

/-- Re-importing yields version 1 of the module `src/server/SoarBaseAPI.py`
actually defines (no cache functions). -/
def srcSoarModule : PyModule := ⟨1, soarBaseApiAttrs⟩

/-- A hypothetical version-1 module defining every name the binding loops
reference. -/
def fullSoarModule : PyModule := ⟨1, reloadBindNames⟩

/-! ## Claim theorems -/

/-- C1, counterexample.  With interactive stdin (and likewise with piped
input that is not well-formed JSON) `load_context()` returns Python `None`,
not the empty mapping `\x7b\x7d` the claim states. -/
theorem load_context_missing_input_not_empty_mapping :
    load_context .tty ≠ some (Json.obj []) ∧
    load_context (.piped none) ≠ some (Json.obj []) ∧
    load_context .tty = none := by
  refine ⟨?_, ?_, rfl⟩ <;> intro h <;> simp [load_context] at h

/-- C1, amended.  For well-formed piped JSON, `load_context()` returns the
parsed document unchanged; when stdin is interactive or its content does not
parse, it returns `None` (the absent sentinel), not the empty mapping. -/
theorem load_context_returns_parsed_or_none :
    (∀ j : Json, load_context (.piped (some j)) = some j) ∧
    load_context .tty = none ∧ load_context (.piped none) = none :=
  ⟨fun _ => rfl, rfl, rfl⟩

/-- C2.  On context `\x7b"urls": []\x7d` the run *does* emit a first
envelope with `success = false`, `summary.total_urls = 0` and a non-empty
error string — but, because the early `return` statements are commented
out, the run then emits two more documents, invokes the integration-config
fetch, and issues an HTTP request (here, with a resolvable credential file
and an unreachable endpoint).  The claim's "no network call" part is
violated. -/
theorem scanner_empty_urls_fetches_config :
    (vt_main fsCred netDown oracleEmpty jparseNone "2024-01-01T00:00:00" ctxEmptyUrls).map
        (fun tr => (tr.docs.head?, tr.docs.length, tr.configFetches, tr.httpRequests)) =
      some (some noUrlsEnvelope, 3, ["virustotal"],
            ["http://localhost:8080/integrations/virustotal"]) ∧
    search_context_path noUrlsEnvelope "virustotal.success" = .bool false ∧
    search_context_path noUrlsEnvelope "virustotal.summary.total_urls" = .num 0 ∧
    truthy (search_context_path noUrlsEnvelope "virustotal.error") = true := by
  exact ⟨rfl, rfl, rfl, rfl⟩

/-- C3.  One invocation on context `\x7b"urls": []\x7d` writes *three* JSON
documents to standard output — `return_context` runs in both fallen-through
early-exit branches and then again at the end — refuting "at most one JSON
document per run". -/
theorem scanner_empty_urls_emits_three_documents :
    vt_main fsCred netDown oracleEmpty jparseNone "2024-01-01T00:00:00" ctxEmptyUrls =
      some ⟨[noUrlsEnvelope, noValidUrlsEnvelope [] 0, emptyRunFinalDoc],
            ["virustotal"], ["http://localhost:8080/integrations/virustotal"], []⟩ := by
  rfl

/-- C4, counterexample.  With a resolvable credential and a 200 response
whose body parses to a JSON array, `data.get("success")` raises
`AttributeError`, which `except requests.exceptions.RequestException` does
not catch: the exception propagates to the caller instead of an absent
result. -/
theorem get_integration_config_array_body_raises :
    get_integration_config fsCred netArrayBody "virustotal" =
      (.error (), ["http://localhost:8080/integrations/virustotal"]) := by
  rfl

/-- C4, amended.  Every enumerated failure mode *except* a 200 response
with a non-dict JSON body degrades to the absent result without an
exception: a missing credential (which subsumes missing, unreadable and
malformed local config files), a network error or timeout, a non-200
status, and a 200 dict body lacking truthy `success`/`integration` entries
all yield `None`; a 200 response whose body is valid JSON but not a dict
raises `AttributeError` to the caller. -/
theorem get_integration_config_failure_modes (fs : FileSys) (net : ConfigNet) (name : String) :
    (truthy (get_secauto_config fs).2 = false →
      get_integration_config fs net name = (.ok none, [])) ∧
    (truthy (get_secauto_config fs).2 = true →
      (net (configRequestUrl fs name) = none →
        get_integration_config fs net name = (.ok none, [configRequestUrl fs name])) ∧
      (∀ resp, net (configRequestUrl fs name) = some resp →
        (resp.status ≠ 200 →
          get_integration_config fs net name = (.ok none, [configRequestUrl fs name])) ∧
        (∀ fields, resp.status = 200 → resp.body = .obj fields →
          (truthy (fget fields "success" .null) &&
            truthy (fget fields "integration" .null)) = false →
          get_integration_config fs net name = (.ok none, [configRequestUrl fs name])) ∧
        (resp.status = 200 → isObj resp.body = false →
          get_integration_config fs net name =
            (.error (), [configRequestUrl fs name])))) := by
  constructor
  · intro h
    simp [get_integration_config, h]
  · intro h
    refine ⟨?_, ?_⟩
    · intro hn
      simp [get_integration_config, h, hn]
    · intro resp hr
      refine ⟨?_, ?_, ?_⟩
      · intro hs
        simp [get_integration_config, h, hr, hs]
      · intro fields hs hb hflags
        simp [get_integration_config, h, hr, hs, hb, hflags]
      · intro hs hb
        cases hbody : resp.body <;> simp [isObj, hbody] at hb <;>
          simp [get_integration_config, h, hr, hs, hbody]

/-- C4, witness: with no config files at all, the credential check fails
and the call returns the absent result with no request. -/
theorem get_integration_config_failure_modes_witness :
    truthy (get_secauto_config fsEmpty).2 = false ∧
    get_integration_config fsEmpty netDown "virustotal" = (.ok none, []) :=
  ⟨rfl, (get_integration_config_failure_modes fsEmpty netDown "virustotal").1 rfl⟩

/-- C5.  When no candidate config file qualifies (missing, unparseable, or
lacking truthy `secauto_url`/`secauto_api_key`), `get_secauto_config`
falls back to the default address with a `None` credential, and
`get_integration_config` then short-circuits for every integration name:
absent result, and the HTTP request list is empty — no network call is
attempted without a credential. -/
theorem no_credential_no_network (fs : FileSys) (net : ConfigNet) (name : String)
    (h : ∀ p ∈ config_paths, tryConfigPath fs p = none) :
    get_secauto_config fs = (Json.str "http://localhost:8080", Json.null) ∧
    get_integration_config fs net name = (.ok none, []) := by
  have h1 : tryConfigPath fs "data/integration_config.json" = none :=
    h _ (by simp [config_paths])
  have h2 : tryConfigPath fs "SoarAuto/data/integration_config.json" = none :=
    h _ (by simp [config_paths])
  have h3 : tryConfigPath fs "../SoarAuto/data/integration_config.json" = none :=
    h _ (by simp [config_paths])
  have hcfg : get_secauto_config fs = (Json.str "http://localhost:8080", Json.null) := by
    simp [get_secauto_config, get_secauto_config.go, config_paths, h1, h2, h3]
  refine ⟨hcfg, ?_⟩
  simp [get_integration_config, hcfg, truthy]

/-- C5, witness: the empty filesystem disqualifies every candidate. -/
theorem no_credential_no_network_witness :
    get_secauto_config fsEmpty = (Json.str "http://localhost:8080", Json.null) ∧
    get_integration_config fsEmpty netDown "virustotal" = (.ok none, []) :=
  no_credential_no_network fsEmpty netDown "virustotal" (fun _ _ => rfl)

/-- C6.  `search_context_path` splits the path on dots and walks strictly
downward through dicts only: whenever the segment chain reaches a value
(`PathReaches`), it returns exactly that value, and whenever no value is
reachable — some segment missing, or a non-dict met before the segments are
exhausted — it returns the absent sentinel. -/
theorem search_context_path_walks_mappings (d : Json) (p : String) :
    (∀ v, PathReaches d (pySplit p '.') v → search_context_path d p = v) ∧
    ((∀ v, ¬ PathReaches d (pySplit p '.') v) → search_context_path d p = Json.null) :=
  ⟨fun _ h => walkKeys_reaches _ _ _ h, fun h => walkKeys_not_reaches _ _ h⟩

/-- C6, witness: the spec's two examples,
`search_context_path(\x7b"a":\x7b"b":\x7b"c":1\x7d\x7d\x7d, "a.b.c") = 1`
and `"a.x.c"` absent. -/
theorem search_context_path_walks_mappings_witness :
    search_context_path (.obj [("a", .obj [("b", .obj [("c", .num 1)])])]) "a.b.c" =
      Json.num 1 ∧
    search_context_path (.obj [("a", .obj [("b", .obj [("c", .num 1)])])]) "a.x.c" =
      Json.null := by
  constructor
  · apply (search_context_path_walks_mappings
      (.obj [("a", .obj [("b", .obj [("c", .num 1)])])]) "a.b.c").1 (Json.num 1)
    rw [show pySplit "a.b.c" '.' = ["a", "b", "c"] from rfl]
    exact PathReaches.cons rfl (PathReaches.cons rfl (PathReaches.cons rfl
      (PathReaches.nil _)))
  · apply (search_context_path_walks_mappings
      (.obj [("a", .obj [("b", .obj [("c", .num 1)])])]) "a.x.c").2
    intro v hv
    rw [show pySplit "a.x.c" '.' = ["a", "x", "c"] from rfl] at hv
    cases hv with
    | cons hl hrest =>
        simp [lookupField] at hl
        subst hl
        cases hrest with
        | cons hl2 hrest2 => simp [lookupField] at hl2

/-- C7.  On any document in which the searched key occurs in at most one
dict node, the recursive `search_context` and the work-stack
`search_context_iterative` return the same result: the occurrence's stored
value when the key occurs, `None` otherwise.  (They may differ only on
documents with several occurrences of the key.) -/
theorem search_strategies_agree_on_unique_key (j : Json) (key : String)
    (h : keyCount j key ≤ 1) :
    search_context j key = search_context_iterative j key := by
  rcases Nat.le_one_iff_eq_zero_or_eq_one.mp h with h0 | h1
  · rw [search_count_zero j key h0, search_context_iterative]
    exact (iterAux_count_zero key (lsize [j]) [j] le_rfl
      (by simp [itemsCount, h0])).symm
  · cases ho : occVal j key with
    | none =>
        rw [occVal_none_iff] at ho
        omega
    | some v =>
        rw [search_count_one j key v h1 ho, search_context_iterative]
        exact (iterAux_count_one key (lsize [j]) [j] v le_rfl
          (by simp [itemsCount, h1]) ⟨j, by simp, ho⟩).symm

/-- C7, witness: a document with one deep occurrence of the key. -/
theorem search_strategies_agree_on_unique_key_witness :
    keyCount (.obj [("x", .obj [("k", .num 1)]), ("y", .num 2)]) "k" ≤ 1 ∧
    search_context (.obj [("x", .obj [("k", .num 1)]), ("y", .num 2)]) "k" =
      search_context_iterative (.obj [("x", .obj [("k", .num 1)]), ("y", .num 2)]) "k" :=
  ⟨by decide, search_strategies_agree_on_unique_key
    (.obj [("x", .obj [("k", .num 1)]), ("y", .num 2)]) "k" (by decide)⟩

/-- C10, counterexample.  The absent sentinel is Python `None`, which is
the very same value as JSON `null`: a document that *does* contain the key
with stored value `null` makes every lookup return the sentinel itself, so
the sentinel is not distinct from valid data and the claim's "including
when the stored value is JSON null" fails. -/
theorem null_value_lookup_equals_sentinel :
    search_context (.obj [("a", .obj [("k", .null)])]) "k" = Json.null ∧
    search_context_iterative (.obj [("a", .obj [("k", .null)])]) "k" = Json.null ∧
    search_context_path (.obj [("k", .null)]) "k" = Json.null := by
  refine ⟨by decide, ?_, by decide⟩
  simp [search_context_iterative, searchIterAux, fieldValues, isContainer, lookupField,
    List.filter]

/-- C10, amended.  For a document in which the key occurs exactly once,
`search_context` and `search_context_iterative` return the stored value,
and `search_context_path` returns the value its dot-path reaches; when that
stored value is not `null` the result is distinct from the sentinel.  A
stored JSON `null`, however, is returned as Python `None` and is therefore
indistinguishable from absence. -/
theorem unique_key_lookup_returns_stored_value (d : Json) (key : String) (v : Json)
    (h1 : keyCount d key = 1) (h2 : occVal d key = some v) :
    search_context d key = v ∧ search_context_iterative d key = v ∧
    (∀ p, PathReaches d (pySplit p '.') v → search_context_path d p = v) ∧
    (v ≠ Json.null →
      search_context d key ≠ Json.null ∧ search_context_iterative d key ≠ Json.null) := by
  have hs := search_count_one d key v h1 h2
  have hi : search_context_iterative d key = v := by
    rw [search_context_iterative]
    exact iterAux_count_one key (lsize [d]) [d] v le_rfl
      (by simp [itemsCount, h1]) ⟨d, by simp, h2⟩
  exact ⟨hs, hi, fun _ hp => walkKeys_reaches _ _ _ hp,
    fun hv => ⟨by rw [hs]; exact hv, by rw [hi]; exact hv⟩⟩

/-- C10, amended, witness: a key stored once with the non-null value 7. -/
theorem unique_key_lookup_returns_stored_value_witness :
    keyCount (.obj [("k", .num 7)]) "k" = 1 ∧
    search_context (.obj [("k", .num 7)]) "k" = Json.num 7 ∧
    search_context_iterative (.obj [("k", .num 7)]) "k" = Json.num 7 ∧
    search_context (.obj [("k", .num 7)]) "k" ≠ Json.null :=
  ⟨by decide,
   (unique_key_lookup_returns_stored_value (.obj [("k", .num 7)]) "k" (Json.num 7)
     (by decide) (by decide)).1,
   (unique_key_lookup_returns_stored_value (.obj [("k", .num 7)]) "k" (Json.num 7)
     (by decide) (by decide)).2.1,
   ((unique_key_lookup_returns_stored_value (.obj [("k", .num 7)]) "k" (Json.num 7)
     (by decide) (by decide)).2.2.2 (by decide)).1⟩

theorem bindAttrs_all_present (m : PyModule) :
    ∀ (names : List String) (b : Bindings), (∀ n ∈ names, n ∈ m.attrs) →
      (bindAttrs m names b).1 = true ∧
      (∀ n, (bindAttrs m names b).2 n =
        if n ∈ names then some m.version else b n) := by
  intro names
  induction names with
  | nil =>
      intro b _
      exact ⟨rfl, fun n => by simp [bindAttrs]⟩
  | cons x xs ih =>
      intro b h
      have hx : x ∈ m.attrs := h x (by simp)
      have hxs : ∀ n ∈ xs, n ∈ m.attrs := fun n hn => h n (by simp [hn])
      obtain ⟨h1, h2⟩ := ih (setBinding b x m.version) hxs
      refine ⟨by simp [bindAttrs, hx, h1], ?_⟩
      intro n
      simp only [bindAttrs, hx, if_pos]
      rw [h2 n]
      by_cases hnx : n ∈ xs
      · simp [hnx, List.mem_cons]
      · by_cases hne : n = x
        · subst hne
          simp [hnx, setBinding]
        · simp [hnx, hne, setBinding, List.mem_cons]

/-- C8, counterexample.  The initial import block records no timestamp, so
on the *first* `check_and_reload()` call — here with the file present, an
arbitrary (advanced) mtime of 10, and a perfectly importable fresh module —
the supervisor only records the mtime and rebinds nothing: the bindings
stay at version 0 although the file changed after they were bound. -/
theorem first_check_and_reload_records_without_rebinding :
    check_and_reload ⟨true, 10, some fullSoarModule⟩ ⟨none, bindingsZero⟩ =
      ⟨some 10, bindingsZero⟩ ∧
    (check_and_reload ⟨true, 10, some fullSoarModule⟩ ⟨none, bindingsZero⟩).bindings
      "search_context" = some 0 := ⟨rfl, rfl⟩

/-- C8, amended.  `check_and_reload()` is a no-op when the file is absent;
its first call only records the current mtime and never reloads, whatever
the file's history; on later calls it re-imports and rebinds every exported
capability function exactly when the mtime is strictly newer than the
recorded one (given the re-import supplies the referenced attributes),
recording the new mtime; when the mtime has not advanced it leaves the
state untouched — so the call is idempotent and a second call with no
further file change rebinds nothing. -/
theorem check_and_reload_behavior (env : FileEnv) (s : SupState) :
    (env.fileExists = false → check_and_reload env s = s) ∧
    (env.fileExists = true → s.lastModified = none →
      check_and_reload env s = { s with lastModified := some env.mtime }) ∧
    (∀ t m, env.fileExists = true → s.lastModified = some t → t < env.mtime →
      env.importResult = some m → (∀ n ∈ reloadBindNames, n ∈ m.attrs) →
      (check_and_reload env s).lastModified = some env.mtime ∧
      (∀ n, n ∈ reloadBindNames →
        (check_and_reload env s).bindings n = some m.version)) ∧
    (∀ t, env.fileExists = true → s.lastModified = some t → ¬ t < env.mtime →
      check_and_reload env s = s) ∧
    check_and_reload env (check_and_reload env s) = check_and_reload env s := by
  refine ⟨?_, ?_, ?_, ?_, ?_⟩
  · intro h
    simp [check_and_reload, h]
  · intro h hl
    simp [check_and_reload, h, hl]
  · intro t m h hl ht hm hattrs
    have hb := bindAttrs_all_present m reloadBindNames
      (setBinding s.bindings "SoarBaseAPI" m.version) hattrs
    constructor
    · simp [check_and_reload, h, hl, ht]
    · intro n hn
      have hbn := hb.2 n
      simp [check_and_reload, h, hl, ht, reload_soar_api, hm, hbn, hn]
  · intro t h hl ht
    simp [check_and_reload, h, hl, ht]
  · by_cases h : env.fileExists
    · cases hl : s.lastModified with
      | none => simp [check_and_reload, h, hl]
      | some t =>
          by_cases ht : t < env.mtime
          · simp [check_and_reload, h, hl, ht]
          · simp [check_and_reload, h, hl, ht]
    · simp [check_and_reload, Bool.not_eq_true _ ▸ h]

/-- C8, witness: a recorded timestamp 3, the file now at mtime 5, and a
fresh fully-populated module: the call reloads and rebinds. -/
theorem check_and_reload_behavior_witness :
    (check_and_reload ⟨true, 5, some fullSoarModule⟩ ⟨some 3, bindingsZero⟩).lastModified =
      some 5 ∧
    (check_and_reload ⟨true, 5, some fullSoarModule⟩ ⟨some 3, bindingsZero⟩).bindings
      "search_context" = some 1 := by
  have h := (check_and_reload_behavior ⟨true, 5, some fullSoarModule⟩
    ⟨some 3, bindingsZero⟩).2.2.1 3 fullSoarModule rfl rfl (by decide) rfl
    (fun n hn => hn)
  exact ⟨h.1, h.2 "search_context" (by decide)⟩

/-- C9, counterexample.  Re-importing the module that
`src/server/SoarBaseAPI.py` actually defines (it has no `get_cache`):
`reload_soar_api` fails at `builtins.get_cache = SoarBaseAPI.get_cache`
*after* having already rebound `search_context` (and eight other names) to
the new module — the previously established bindings are not left intact.
And in the initial import block, the same `AttributeError` is not an
`ImportError`, so it escapes the activation path. -/
theorem reload_failure_partial_rebinding_and_initial_raise :
    (reload_soar_api (some srcSoarModule) bindingsZero).1 = false ∧
    (reload_soar_api (some srcSoarModule) bindingsZero).2 "search_context" = some 1 ∧
    bindingsZero "search_context" = some 0 ∧
    isRaised (initial_activation (some srcSoarModule) bindingsZero) = true :=
  ⟨rfl, rfl, rfl, rfl⟩

/-- C9, amended.  `reload_soar_api` itself never raises (every failure is
caught and reported as `False`), and a failure of the re-import step leaves
every previous binding intact; when the re-imported module supplies all the
referenced attributes, the reload succeeds and rebinds them all.  But a
*rebinding* failure partway through leaves the names already processed
rebound to the new module, and the initial import block catches only
`ImportError`, so an `AttributeError` there propagates out of the
activation path. -/
theorem reload_soar_api_import_failure_leaves_bindings (b : Bindings)
    (imp : Option PyModule) :
    (imp = none → reload_soar_api imp b = (false, b)) ∧
    (∀ m, imp = some m → (∀ n ∈ reloadBindNames, n ∈ m.attrs) →
      (reload_soar_api imp b).1 = true ∧
      (∀ n, n ∈ reloadBindNames → (reload_soar_api imp b).2 n = some m.version)) := by
  constructor
  · intro h
    simp [reload_soar_api, h]
  · intro m hm hattrs
    have hb := bindAttrs_all_present m reloadBindNames
      (setBinding b "SoarBaseAPI" m.version) hattrs
    subst hm
    refine ⟨hb.1, ?_⟩
    intro n hn
    simp only [reload_soar_api]
    rw [hb.2 n]
    simp [hn]

/-- C9, witness: an import failure returns `False` with the bindings
untouched; a fully-populated module rebinds `get_cache` to the new
version. -/
theorem reload_soar_api_import_failure_leaves_bindings_witness :
    reload_soar_api none bindingsZero = (false, bindingsZero) ∧
    (reload_soar_api (some fullSoarModule) bindingsZero).2 "get_cache" = some 1 :=
  ⟨(reload_soar_api_import_failure_leaves_bindings bindingsZero none).1 rfl,
   ((reload_soar_api_import_failure_leaves_bindings bindingsZero
      (some fullSoarModule)).2 fullSoarModule rfl (fun n hn => hn)).2
      "get_cache" (by decide)⟩

end SecAuto
